import Mathlib

/-!
Shallow embedding of the recommendation service of the `food_model`
repository (`app/services/recommendation.py`, the recommendation endpoints
in `app/api/v1/endpoints/recommendations.py`, and the offline trainer in
`scripts/training/train_model.py`), together with proofs about the claims
of its specification.

Modelling conventions:
* Python numbers (ints and floats) are modelled as rationals `ℚ`; the float
  literal `0.2` is modelled as `1/5` and `1e-8` as `1/10^8`.
* A Python dict produced from a `Recipe` ORM row (`recipe.__dict__`) is
  modelled as the structure `RecipeDict`; a field that may be absent from
  the dict (read with `dict.get(key, default)`) or may be a nullable
  column is an `Option`, and `get` with a default becomes `Option.getD`.
* JSON-string columns (`common_allergens`, the four preference columns of
  `User`) are modelled in already-parsed form, `Option (List String)`;
  `json.loads(col or "[]")` becomes `Option.getD _ []`.
* The SQLAlchemy session is modelled as the structure `Db` holding the
  rows of the tables the service reads; `query(...).all()` is the row
  list, `query(...).filter(Model.id == x).first()` is `List.find?`.
* `list.sort(key=..., reverse=True)` (a stable descending sort) is
  modelled with `List.insertionSort` keyed on the flipped order, which is
  also stable, so both produce the unique stable descending reordering.
-/

/-- Row of the `ingredients` table, restricted to the column the service
reads. `common_allergens` is a nullable JSON-string column, modelled
parsed: `json.loads(ingredient.common_allergens or "[]")` is
`common_allergens.getD []`. -/
structure IngredientRow where
  common_allergens : Option (List String)
deriving DecidableEq

/-- Dict view of a recipe as consumed by `RecommendationService`
(`recipe.__dict__` of a `Recipe` row, or any recipe dict passed to
`filter_by_preferences`). Every key read via `dict.get` is an `Option`. -/
structure RecipeDict where
  id : Int
  calories : Option ℚ
  protein : Option ℚ
  carbs : Option ℚ
  fat : Option ℚ
  fiber : Option ℚ
  prep_time : Option ℚ
  cook_time : Option ℚ
  servings : Option ℚ
  sodium : Option ℚ
  sugar : Option ℚ
  tags : Option (List String)
  cuisine : Option String
  ingredients : Option (List IngredientRow)
  match_score : Option ℚ
  food_flags : Option (List String)
deriving DecidableEq

/-- Row of the `users` table, restricted to the columns
`RecommendationService.get_user_preferences` reads, with the four
JSON-string preference columns modelled parsed (`None` for SQL NULL). -/
structure UserRow where
  id : Int
  dietary_restrictions : Option (List String)
  favorite_cuisines : Option (List String)
  allergies : Option (List String)
  food_flags : Option (List String)
deriving DecidableEq

/-- Row of the `user_recipe_interactions` table, restricted to the columns
`collaborative_filtering` touches. -/
structure InteractionRow where
  user_id : Int
  recipe_id : Int
  interaction_type : String
deriving DecidableEq

/-- In-memory model of the database session: the rows of the three tables
the recommendation service queries. -/
structure Db where
  recipes : List RecipeDict
  users : List UserRow
  interactions : List InteractionRow

/-- Result of `get_user_preferences`: the dict with the four preference
lists. -/
structure Preferences where
  dietary_restrictions : List String
  favorite_cuisines : List String
  allergies : List String
  food_flags : List String
deriving DecidableEq

/-- One entry of the `self.food_flags` configuration dict set in
`RecommendationService.__init__`. -/
structure FlagRule where
  threshold : ℚ
  unit : String
deriving DecidableEq

/-- The `self.food_flags` dict assigned in `RecommendationService.__init__`
and never reassigned afterwards. -/
def food_flags_init : List (String × FlagRule) :=
  [("high_sodium", ⟨500, "mg"⟩),
   ("high_sugar", ⟨25, "g"⟩),
   ("high_fat", ⟨20, "g"⟩),
   ("high_calories", ⟨500, "kcal"⟩),
   ("high_carbs", ⟨50, "g"⟩),
   ("low_protein", ⟨10, "g"⟩)]

/-- Access `self.food_flags[name]['threshold']`. -/
def flagThreshold (name : String) : ℚ :=
  (((food_flags_init.lookup name).map FlagRule.threshold).getD 0)

/-- `RecommendationService.get_user_preferences`: first user row whose id
matches, defaulting every preference list to empty when the user is not
found (and parsing NULL columns as empty lists when it is). -/
def get_user_preferences (user_id : Int) (db : Db) : Preferences :=
  match db.users.find? (fun u => u.id == user_id) with
  | none =>
      { dietary_restrictions := []
        favorite_cuisines := []
        allergies := []
        food_flags := [] }
  | some user =>
      { dietary_restrictions := user.dietary_restrictions.getD []
        favorite_cuisines := user.favorite_cuisines.getD []
        allergies := user.allergies.getD []
        food_flags := user.food_flags.getD [] }

/-- `RecommendationService.check_recipe_allergens`: true when some
ingredient of the recipe has a common allergen among the user's
allergies. -/
def check_recipe_allergens (recipe : RecipeDict) (user_allergies : List String) : Bool :=
  (recipe.ingredients.getD []).any (fun ingredient =>
    user_allergies.any (fun allergen =>
      (ingredient.common_allergens.getD []).contains allergen))

/-- `RecommendationService.check_food_flags`: straight-line threshold
checks appending flag names in the fixed source order. -/
def check_food_flags (recipe : RecipeDict) : List String :=
  (if recipe.sodium.getD 0 > flagThreshold "high_sodium" then ["high_sodium"] else []) ++
  (if recipe.sugar.getD 0 > flagThreshold "high_sugar" then ["high_sugar"] else []) ++
  (if recipe.fat.getD 0 > flagThreshold "high_fat" then ["high_fat"] else []) ++
  (if recipe.calories.getD 0 > flagThreshold "high_calories" then ["high_calories"] else []) ++
  (if recipe.carbs.getD 0 > flagThreshold "high_carbs" then ["high_carbs"] else []) ++
  (if recipe.protein.getD 0 < flagThreshold "low_protein" then ["low_protein"] else [])

/-- Cuisine test of `filter_by_preferences`:
`recipe.get('cuisine') in preferences['favorite_cuisines']` (a missing
cuisine, Python `None`, never matches a list of strings). -/
def cuisine_matches (recipe : RecipeDict) (preferences : Preferences) : Bool :=
  match recipe.cuisine with
  | some c => preferences.favorite_cuisines.contains c
  | none => false

/-- In-place update applied by `filter_by_preferences` to a retained
recipe dict: boost `match_score` by `0.2` (from default `0`) on a
favorite-cuisine match, then store the computed food flags under
`food_flags`. -/
def update_retained (preferences : Preferences) (recipe : RecipeDict) : RecipeDict :=
  let recipe_flags := check_food_flags recipe
  let recipe1 :=
    if cuisine_matches recipe preferences then
      { recipe with match_score := some (recipe.match_score.getD 0 + 1/5) }
    else recipe
  { recipe1 with food_flags := some recipe_flags }

/-- Exclusion guard of the loop body of `filter_by_preferences`: the three
`continue` conditions in source order. -/
def excluded_by_preferences (recipe : RecipeDict) (preferences : Preferences) : Bool :=
  preferences.dietary_restrictions.any (fun restriction =>
      (recipe.tags.getD []).contains restriction) ||
  check_recipe_allergens recipe preferences.allergies ||
  preferences.food_flags.any (fun flag => (check_food_flags recipe).contains flag)

/-- `RecommendationService.filter_by_preferences`, translated loop. -/
def filter_by_preferences (recipes : List RecipeDict) (preferences : Preferences) :
    List RecipeDict :=
  match recipes with
  | [] => []
  | recipe :: rest =>
    if preferences.dietary_restrictions.any (fun restriction =>
        (recipe.tags.getD []).contains restriction) then
      filter_by_preferences rest preferences
    else if check_recipe_allergens recipe preferences.allergies then
      filter_by_preferences rest preferences
    else if preferences.food_flags.any (fun flag =>
        (check_food_flags recipe).contains flag) then
      filter_by_preferences rest preferences
    else
      update_retained preferences recipe :: filter_by_preferences rest preferences

/-- `RecommendationService._find_similar_users` (the Lean name drops the
leading underscore): unconditional placeholder. -/
def find_similar_users (_user_id : Int) (_db : Db) : List Int :=
  []

/-- `RecommendationService._get_recipes_from_similar_users` (the Lean name
drops the leading underscore): unconditional placeholder. -/
def get_recipes_from_similar_users (_similar_users : List Int) (_db : Db) : List Int :=
  []

/-- `RecommendationService.collaborative_filtering`: queries the user's
interaction history (unused), then chains the two placeholder helpers. -/
def collaborative_filtering (user_id : Int) (db : Db) : List Int :=
  let _user_interactions := db.interactions.filter (fun i => i.user_id == user_id)
  let similar_users := find_similar_users user_id db
  let recommended_recipes := get_recipes_from_similar_users similar_users db
  recommended_recipes

/-- Square root on `ℚ`, used to model `numpy` square roots. `ℚ` has no
genuine square root; in this development the function is only ever applied
to `0` (the scaler variance of a single-sample fit and the squared norm of
the resulting all-zero feature vectors, see `get_recipe_features_zero`),
where the value `0` is exact. The value on other inputs is immaterial and
set to the input itself. -/
def sqrtQ (q : ℚ) : ℚ :=
  if q = 0 then 0 else q

/-- Per-column effect of `StandardScaler().fit_transform` on a matrix with
a single row (`np.array(features).reshape(1, -1)`): each column holds one
value `x`, so the fitted column mean is `x`, the fitted column variance is
`(x - x)^2 = 0`, the scale is `sqrt(variance)` with zeros replaced by `1`
(sklearn `_handle_zeros_in_scale`), and the transform is
`(x - mean) / scale`. -/
def scaler_fit_transform_col (x : ℚ) : ℚ :=
  let mean := x
  let variance := (x - mean) ^ 2
  let scale := if sqrtQ variance = 0 then 1 else sqrtQ variance
  (x - mean) / scale

/-- `self.scaler.fit_transform` as called in `get_recipe_features`: the
scaler is (re-)fitted on the single-row matrix itself, column by column. -/
def scaler_fit_transform_row (features : List ℚ) : List ℚ :=
  features.map scaler_fit_transform_col

/-- `RecommendationService.get_recipe_features`: the 8-entry feature list
(`servings` defaulting to 1, the rest to 0), standardized by fitting the
scaler on that single row. -/
def get_recipe_features (recipe : RecipeDict) : List ℚ :=
  let features : List ℚ :=
    [recipe.calories.getD 0,
     recipe.protein.getD 0,
     recipe.carbs.getD 0,
     recipe.fat.getD 0,
     recipe.fiber.getD 0,
     recipe.prep_time.getD 0,
     recipe.cook_time.getD 0,
     recipe.servings.getD 1]
  scaler_fit_transform_row features

/-- Dot product of two feature vectors. -/
def dotQ (a b : List ℚ) : ℚ :=
  (List.zipWith (· * ·) a b).sum

/-- The `eps` denominator guard of `torch.cosine_similarity`, `1e-8`. -/
def cosine_eps : ℚ :=
  1 / 10 ^ 8

/-- `torch.cosine_similarity(x1, x2)` on single-row tensors:
`x1 · x2 / max(‖x1‖ * ‖x2‖, eps)`. -/
def cosine_similarity (a b : List ℚ) : ℚ :=
  dotQ a b / max (sqrtQ (dotQ a a) * sqrtQ (dotQ b b)) cosine_eps

/-- Descending stable ordering used by
`similar_recipes.sort(key=lambda x: x['match_score'], reverse=True)`:
`a` may precede `b` precisely when `b`'s score does not exceed `a`'s. -/
def score_ge (a b : Int × ℚ) : Prop :=
  b.2 ≤ a.2

instance : DecidableRel score_ge := fun a b => inferInstanceAs (Decidable (b.2 ≤ a.2))

instance : IsTotal (Int × ℚ) score_ge := ⟨fun a b => le_total b.2 a.2⟩

instance : IsTrans (Int × ℚ) score_ge := ⟨fun _ _ _ h1 h2 => le_trans h2 h1⟩

/-- Python's `list.sort(key=..., reverse=True)` (stable, descending),
modelled by stable insertion sort on the flipped score order. -/
def sort_by_score_desc (l : List (Int × ℚ)) : List (Int × ℚ) :=
  List.insertionSort score_ge l

/-- `db.query(Recipe).filter(Recipe.id == recipe_id).first()`. -/
def targetOf (db : Db) (recipe_id : Int) : Option RecipeDict :=
  db.recipes.find? (fun r => r.id == recipe_id)

/-- Scored candidate list built by the loop of `content_based_filtering`:
every recipe other than the target id, paired with its cosine similarity
to the target's features. -/
def candidate_scores (db : Db) (recipe_id : Int) (target_recipe : RecipeDict) :
    List (Int × ℚ) :=
  let target_features := get_recipe_features target_recipe
  (db.recipes.filter (fun r => !(r.id == recipe_id))).map
    (fun r => (r.id, cosine_similarity target_features (get_recipe_features r)))

/-- `RecommendationService.content_based_filtering`: empty when the target
recipe does not exist; otherwise score every other recipe, sort by score
descending, and return the ids. -/
def content_based_filtering (db : Db) (recipe_id : Int) : List Int :=
  match targetOf db recipe_id with
  | none => []
  | some target_recipe =>
      (sort_by_score_desc (candidate_scores db recipe_id target_recipe)).map Prod.fst

/-- Response of a FastAPI handler: a successful body, or an
`HTTPException` with a status code and a detail string. -/
inductive HttpResponse (α : Type) where
  | ok : α → HttpResponse α
  | httpError : ℕ → String → HttpResponse α
deriving DecidableEq

/-- GET `/personalized` handler
(`get_personalized_recommendations` in
`app/api/v1/endpoints/recommendations.py`). The argument is the outcome of
the `try` body, the call to `recommendation_service.get_recommendations`:
`Except.ok` when no exception was raised, `Except.error msg` when an
exception with message `msg` was; the `except` arm wraps any exception
into an HTTP 500 whose detail embeds the message. -/
def get_personalized_recommendations (result : Except String (List RecipeDict)) :
    HttpResponse (List RecipeDict) :=
  match result with
  | Except.ok recommendations => HttpResponse.ok recommendations
  | Except.error e => HttpResponse.httpError 500 ("Error getting recommendations: " ++ e)

/-- GET `/similar/\x7brecipe_id\x7d` handler (`get_similar_recipes`). The
first argument is the outcome of the `try` body, the call to
`recommendation_service.content_based_filtering`; a success is truncated
to `n_recommendations`, any exception becomes an HTTP 500 whose detail
embeds the message. -/
def get_similar_recipes (result : Except String (List Int)) (n_recommendations : ℕ) :
    HttpResponse (List Int) :=
  match result with
  | Except.ok recommendations => HttpResponse.ok (recommendations.take n_recommendations)
  | Except.error e => HttpResponse.httpError 500 ("Error getting similar recipes: " ++ e)

/-- Fitted state of the sklearn `StandardScaler` held by the service
(`self.scaler`): per-column means and scales once fitted. -/
structure ScalerState where
  mean_ : Option (List ℚ)
  scale_ : Option (List ℚ)
deriving DecidableEq

/-- Mutable state of a `RecommendationService` instance: the loaded model
weights (`self.model`, `None` until `load_model`), the scaler, and the
food-flag threshold configuration (`self.food_flags`). -/
structure ServiceState where
  model : Option (List ℚ)
  scaler : ScalerState
  food_flags : List (String × FlagRule)

/-- Service state right after `RecommendationService.__init__`. -/
def initial_service_state : ServiceState :=
  { model := none, scaler := { mean_ := none, scale_ := none }, food_flags := food_flags_init }

/-- A training example as passed to `train_model` (the endpoint passes the
placeholder empty list, so the element type never matters). -/
def TrainingDatum : Type :=
  List (String × ℚ)

/-- `RecommendationService.train_model`: the body is `pass`, so the call
returns Python `None` (modelled as the `none` of `Option Unit`) and the
service state is returned unchanged. -/
def train_model (state : ServiceState) (_training_data : List TrainingDatum) :
    ServiceState × Option Unit :=
  (state, none)

/-- POST `/train` handler (`train_recommendation_model`). `is_admin` is
the `current_user.is_admin` attribute the handler reads: non-admins get a
403; otherwise the placeholder empty training data is passed to
`train_model` and a success message is returned. -/
def train_recommendation_model (is_admin : Bool) (state : ServiceState) :
    ServiceState × HttpResponse String :=
  if !is_admin then
    (state, HttpResponse.httpError 403 "Not enough permissions")
  else
    let training_data : List TrainingDatum := []
    let state1 := (train_model state training_data).1
    (state1, HttpResponse.ok "Model trained successfully")

/- Domain of the loss values produced by `train_epoch` and `validate`.
The training loop never does arithmetic on losses: it only stores them and
compares them with `<` (and the specification additionally needs their
minima), so any linear order models the float loss values faithfully. -/
variable {Loss : Type} [LinearOrder Loss]

/-- Strict comparison `v < best` against `self.best_val_loss`, whose
initial value `float('inf')` is modelled as `none`. -/
def ltBest (v : Loss) : Option Loss → Bool
  | none => true
  | some b => decide (v < b)

/-- Mutable state of a `ModelTrainer` relevant to `train`:
`self.best_val_loss` (`none` models the initial `float('inf')`), the local
`patience_counter`, the loss histories, the epochs at which a checkpoint
file was written, and the loss recorded in `best_model.pt`. -/
structure TrainerState (Loss : Type) where
  best_val_loss : Option Loss
  patience_counter : ℕ
  train_losses : List Loss
  val_losses : List Loss
  checkpoint_epochs : List ℕ
  best_saved : Option Loss
deriving DecidableEq

/-- `ModelTrainer.save_checkpoint`: always writes the per-epoch checkpoint
file; additionally updates `self.best_val_loss` and overwrites
`best_model.pt` when the validation loss strictly improves on it. -/
def save_checkpoint (epoch : ℕ) (val_loss : Loss) (s : TrainerState Loss) : TrainerState Loss :=
  if ltBest val_loss s.best_val_loss then
    { s with
      best_val_loss := some val_loss
      best_saved := some val_loss
      checkpoint_epochs := s.checkpoint_epochs ++ [epoch] }
  else
    { s with checkpoint_epochs := s.checkpoint_epochs ++ [epoch] }

/-- Outcome of `ModelTrainer.train`: how many epochs ran, whether the
early-stopping log line was emitted (the `break`), and the final trainer
state. -/
structure TrainResult (Loss : Type) where
  epochs_run : ℕ
  early_stopped : Bool
  state : TrainerState Loss
deriving DecidableEq

/-- First part of each iteration of `ModelTrainer.train`: append the
epoch's train and validation losses to the metric histories
(`self.train_losses.append(...)`, `self.val_losses.append(...)`). -/
def record_losses (tl vl : ℕ → Loss) (e : ℕ) (s : TrainerState Loss) : TrainerState Loss :=
  { s with
    train_losses := s.train_losses ++ [tl e]
    val_losses := s.val_losses ++ [vl e] }

/-- Second part of each iteration: the `save_interval` checkpoint,
`if (epoch + 1) % save_interval == 0: self.save_checkpoint(...)`. -/
def after_interval_checkpoint (tl vl : ℕ → Loss) (si e : ℕ) (s : TrainerState Loss) :
    TrainerState Loss :=
  if (e + 1) % si == 0 then save_checkpoint e (vl e) (record_losses tl vl e s)
  else record_losses tl vl e s

/-- State update of the improving early-stopping branch:
`self.best_val_loss = val_loss; patience_counter = 0;
self.save_checkpoint(epoch, val_loss)`. -/
def improving_update (vl : ℕ → Loss) (e : ℕ) (s1 : TrainerState Loss) : TrainerState Loss :=
  save_checkpoint e (vl e) { s1 with best_val_loss := some (vl e), patience_counter := 0 }

/-- State update of the non-improving early-stopping branch:
`patience_counter += 1`. -/
def non_improving_update (s1 : TrainerState Loss) : TrainerState Loss :=
  { s1 with patience_counter := s1.patience_counter + 1 }

/-- Loop body of `ModelTrainer.train`, recursing on the number of
remaining epochs. `tl`/`vl` give the training/validation loss produced by
`train_epoch`/`validate` at each epoch (the losses an actual run would
observe); the rest is the literal control flow of the source: record
losses, checkpoint on `save_interval` boundaries, then the early-stopping
bookkeeping with its `break`. -/
def train_loop (tl vl : ℕ → Loss) (save_interval early_stopping_patience : ℕ) :
    ℕ → ℕ → TrainerState Loss → TrainResult Loss
  | _, 0, s => ⟨0, false, s⟩
  | epoch, remaining + 1, s =>
    let s1 := after_interval_checkpoint tl vl save_interval epoch s
    if ltBest (vl epoch) s1.best_val_loss then
      let r := train_loop tl vl save_interval early_stopping_patience (epoch + 1) remaining
        (improving_update vl epoch s1)
      ⟨r.epochs_run + 1, r.early_stopped, r.state⟩
    else
      let s2 := non_improving_update s1
      if early_stopping_patience ≤ s2.patience_counter then
        ⟨1, true, s2⟩
      else
        let r := train_loop tl vl save_interval early_stopping_patience (epoch + 1) remaining s2
        ⟨r.epochs_run + 1, r.early_stopped, r.state⟩

/-- Trainer state right after `ModelTrainer.__init__`. -/
def initial_trainer_state : TrainerState Loss :=
  { best_val_loss := none
    patience_counter := 0
    train_losses := []
    val_losses := []
    checkpoint_epochs := []
    best_saved := none }

/-- `ModelTrainer.train` on a freshly constructed trainer. -/
def ModelTrainer_train (tl vl : ℕ → Loss) (num_epochs save_interval early_stopping_patience : ℕ) :
    TrainResult Loss :=
  train_loop tl vl save_interval early_stopping_patience 0 num_epochs initial_trainer_state

/-- Minimum of the validation losses of the epochs strictly before `e`
(`none` when there is none, matching the initial `float('inf')`). This is
the best validation loss seen so far, in the sense of the specification. -/
def min_val_before (vl : ℕ → Loss) : ℕ → Option Loss
  | 0 => none
  | e + 1 =>
    match min_val_before vl e with
    | none => some (vl e)
    | some m => some (min m (vl e))

/-- Improvement in the sense of the specification: the validation loss at
epoch `e` is strictly below the best validation loss seen so far. -/
def improves_on_best_seen (vl : ℕ → Loss) (e : ℕ) : Bool :=
  ltBest (vl e) (min_val_before vl e)

/-- Improvement as the code's early-stopping comparison actually sees it:
on a `save_interval` boundary, `save_checkpoint` has already lowered
`self.best_val_loss` to the epoch's own validation loss whenever that loss
improved, so the comparison `val_loss < self.best_val_loss` is always
false there; on other epochs it is genuine improvement on the best seen so
far. -/
def improves_at (vl : ℕ → Loss) (save_interval e : ℕ) : Bool :=
  if (e + 1) % save_interval == 0 then false
  else improves_on_best_seen vl e

/-- Value of the code's `patience_counter` right after processing epoch
`e` (assuming the loop has not stopped before): reset to 0 by an epoch
whose early-stopping comparison sees an improvement, incremented
otherwise. -/
def patience_after (vl : ℕ → Loss) (save_interval : ℕ) : ℕ → ℕ
  | 0 => if improves_at vl save_interval 0 then 0 else 1
  | e + 1 =>
    if improves_at vl save_interval (e + 1) then 0
    else patience_after vl save_interval e + 1

/-- Value of the code's `patience_counter` right before processing epoch
`e`. -/
def patience_before (vl : ℕ → Loss) (save_interval : ℕ) : ℕ → ℕ
  | 0 => 0
  | e + 1 => patience_after vl save_interval e

/-- Validation-loss function of the counterexample run: strictly
decreasing, so every epoch strictly improves on the best seen so far. -/
def cex_val_loss : ℕ → Int :=
  fun e => 3 - e

/-- Training-loss function of the counterexample run (never inspected by
the control flow). -/
def cex_train_loss : ℕ → Int :=
  fun _ => 0

/-- Recipe row with a given id and every nullable column NULL, used as
concrete witness data. -/
def sample_recipe (i : Int) : RecipeDict :=
  { id := i, calories := none, protein := none, carbs := none, fat := none,
    fiber := none, prep_time := none, cook_time := none, servings := none,
    sodium := none, sugar := none, tags := none, cuisine := none,
    ingredients := none, match_score := none, food_flags := none }

/-- Small concrete database used as witness data: three recipes, one user
with id 2, no interactions. -/
def witness_db : Db :=
  { recipes := [sample_recipe 1, sample_recipe 2, sample_recipe 3],
    users := [{ id := 2, dietary_restrictions := none, favorite_cuisines := none,
                allergies := none, food_flags := none }],
    interactions := [] }

/-! Theorems about the claims. -/

/-- C3: for every user id and every database state,
`collaborative_filtering` returns the empty list, because each of its two
helpers returns the empty list unconditionally. -/
theorem collaborative_filtering_always_empty (user_id : Int) (db : Db) :
    collaborative_filtering user_id db = [] ∧
    find_similar_users user_id db = [] ∧
    get_recipes_from_similar_users (find_similar_users user_id db) db = [] :=
  ⟨rfl, rfl, rfl⟩

/-- Membership in a conditional singleton list. -/
lemma mem_ite_singleton {c : Prop} [Decidable c] {f x : String} :
    (f ∈ if c then [x] else ([] : List String)) ↔ f = x ∧ c := by
  split <;> simp_all

/-- C4: `check_food_flags` returns exactly the flags whose threshold
condition holds, with missing nutritional fields read as 0: `high_sodium`
iff sodium > 500, `high_sugar` iff sugar > 25, `high_fat` iff fat > 20,
`high_calories` iff calories > 500, `high_carbs` iff carbs > 50 (all
strict), and `low_protein` iff protein < 10. -/
theorem check_food_flags_exact_thresholds (recipe : RecipeDict) (f : String) :
    f ∈ check_food_flags recipe ↔
      ((f = "high_sodium" ∧ recipe.sodium.getD 0 > 500) ∨
       (f = "high_sugar" ∧ recipe.sugar.getD 0 > 25) ∨
       (f = "high_fat" ∧ recipe.fat.getD 0 > 20) ∨
       (f = "high_calories" ∧ recipe.calories.getD 0 > 500) ∨
       (f = "high_carbs" ∧ recipe.carbs.getD 0 > 50) ∨
       (f = "low_protein" ∧ recipe.protein.getD 0 < 10)) := by
  have t1 : flagThreshold "high_sodium" = 500 := rfl
  have t2 : flagThreshold "high_sugar" = 25 := rfl
  have t3 : flagThreshold "high_fat" = 20 := rfl
  have t4 : flagThreshold "high_calories" = 500 := rfl
  have t5 : flagThreshold "high_carbs" = 50 := rfl
  have t6 : flagThreshold "low_protein" = 10 := rfl
  simp only [check_food_flags, t1, t2, t3, t4, t5, t6, List.mem_append, mem_ite_singleton,
    or_assoc]

/-- C10: `get_user_preferences` on a user id that matches no user returns
the preferences dict with all four lists empty (rather than failing). -/
theorem get_user_preferences_unknown_user (user_id : Int) (db : Db)
    (h : ∀ u ∈ db.users, u.id ≠ user_id) :
    get_user_preferences user_id db =
      { dietary_restrictions := [], favorite_cuisines := [],
        allergies := [], food_flags := [] } := by
  have hf : db.users.find? (fun u => u.id == user_id) = none := by
    rw [List.find?_eq_none]
    intro u hu
    simpa using h u hu
  simp [get_user_preferences, hf]

/-- Witness for C10 at a concrete database whose only user has id 2. -/
theorem get_user_preferences_unknown_user_witness :
    (∀ u ∈ witness_db.users, u.id ≠ 1) ∧
    get_user_preferences 1 witness_db =
      { dietary_restrictions := [], favorite_cuisines := [],
        allergies := [], food_flags := [] } :=
  ⟨by decide, get_user_preferences_unknown_user 1 witness_db (by decide)⟩

/-- C7: `train_model` is a no-op that returns Python `None` and leaves the
model, the scaler and the food-flag thresholds unchanged, and the POST
`/train` handler for an admin user leaves the service state unchanged and
reports success. -/
theorem train_model_noop (s : ServiceState) (training_data : List TrainingDatum)
    (s' : ServiceState) :
    train_model s training_data = (s, none) ∧
    (train_model s training_data).1.model = s.model ∧
    (train_model s training_data).1.scaler = s.scaler ∧
    (train_model s training_data).1.food_flags = s.food_flags ∧
    train_recommendation_model true s' = (s', HttpResponse.ok "Model trained successfully") :=
  ⟨rfl, rfl, rfl, rfl, rfl⟩

/-- C6: in the two GET recommendation handlers, an exception in the
computation is mapped to exactly HTTP 500 with the exception message
embedded in the detail, and no other error response is ever produced. -/
theorem recommendation_endpoints_http500
    (rp : Except String (List RecipeDict)) (rs : Except String (List Int)) (n : ℕ) :
    (∀ e, rp = Except.error e →
      get_personalized_recommendations rp =
        HttpResponse.httpError 500 ("Error getting recommendations: " ++ e)) ∧
    (∀ status detail,
      get_personalized_recommendations rp = HttpResponse.httpError status detail →
      ∃ e, rp = Except.error e ∧ status = 500 ∧
        detail = "Error getting recommendations: " ++ e) ∧
    (∀ e, rs = Except.error e →
      get_similar_recipes rs n =
        HttpResponse.httpError 500 ("Error getting similar recipes: " ++ e)) ∧
    (∀ status detail,
      get_similar_recipes rs n = HttpResponse.httpError status detail →
      ∃ e, rs = Except.error e ∧ status = 500 ∧
        detail = "Error getting similar recipes: " ++ e) := by
  refine ⟨?_, ?_, ?_, ?_⟩
  · rintro e rfl
    rfl
  · intro status detail h
    cases rp with
    | ok v => simp [get_personalized_recommendations] at h
    | error e =>
      simp only [get_personalized_recommendations, HttpResponse.httpError.injEq] at h
      exact ⟨e, rfl, h.1.symm, h.2.symm⟩
  · rintro e rfl
    rfl
  · intro status detail h
    cases rs with
    | ok v => simp [get_similar_recipes] at h
    | error e =>
      simp only [get_similar_recipes, HttpResponse.httpError.injEq] at h
      exact ⟨e, rfl, h.1.symm, h.2.symm⟩

/-- Witness for C6: a raised exception with message "boom" yields the 500
response with the message embedded. -/
theorem recommendation_endpoints_http500_witness :
    get_personalized_recommendations (Except.error "boom") =
      HttpResponse.httpError 500 ("Error getting recommendations: " ++ "boom") :=
  (recommendation_endpoints_http500 (Except.error "boom") (Except.error "boom") 0).1 "boom" rfl

/-- Decomposition of the `filter_by_preferences` loop: it keeps exactly
the recipes rejected by none of the three `continue` guards, in order,
applying the in-place update to each retained recipe. -/
lemma filter_by_preferences_eq (recipes : List RecipeDict) (p : Preferences) :
    filter_by_preferences recipes p =
      (recipes.filter (fun r => !(excluded_by_preferences r p))).map (update_retained p) := by
  induction recipes with
  | nil => rfl
  | cons r rest ih =>
    simp only [excluded_by_preferences] at ih ⊢
    cases h1 : p.dietary_restrictions.any (fun restriction =>
        (r.tags.getD []).contains restriction) <;>
      cases h2 : check_recipe_allergens r p.allergies <;>
      cases h3 : p.food_flags.any (fun flag => (check_food_flags r).contains flag) <;>
      simp only [filter_by_preferences, List.filter_cons, h1, h2, h3,
        Bool.false_or, Bool.true_or, Bool.or_false, Bool.or_true,
        Bool.not_true, Bool.not_false, Bool.false_eq_true, if_true, if_false, ih,
        List.map_cons]

/-- C2: a recipe is removed by `filter_by_preferences` iff some tag of the
recipe is among the dietary restrictions, or some common allergen of one
of its ingredients is among the allergies, or some food flag computed by
`check_food_flags` is among the user's food flags; all other recipes are
retained (with the in-place score/flag update) in their input order. -/
theorem filter_by_preferences_removal (recipes : List RecipeDict) (p : Preferences) :
    filter_by_preferences recipes p =
      (recipes.filter (fun r => !(excluded_by_preferences r p))).map (update_retained p) ∧
    ∀ r : RecipeDict,
      excluded_by_preferences r p = true ↔
        ((∃ t ∈ r.tags.getD [], t ∈ p.dietary_restrictions) ∨
         (∃ ing ∈ r.ingredients.getD [],
            ∃ a ∈ ing.common_allergens.getD [], a ∈ p.allergies) ∨
         (∃ fl ∈ check_food_flags r, fl ∈ p.food_flags)) := by
  refine ⟨filter_by_preferences_eq recipes p, ?_⟩
  intro r
  simp [excluded_by_preferences, check_recipe_allergens]
  constructor
  · rintro ((⟨t, ht1, ht2⟩ | ⟨ing, hing, a, ha1, ha2⟩) | ⟨fl, hfl1, hfl2⟩)
    · exact Or.inl ⟨t, ht2, ht1⟩
    · exact Or.inr (Or.inl ⟨ing, hing, a, ha2, ha1⟩)
    · exact Or.inr (Or.inr ⟨fl, hfl2, hfl1⟩)
  · rintro (⟨t, ht1, ht2⟩ | ⟨ing, hing, a, ha1, ha2⟩ | ⟨fl, hfl1, hfl2⟩)
    · exact Or.inl (Or.inl ⟨t, ht2, ht1⟩)
    · exact Or.inl (Or.inr ⟨ing, hing, a, ha2, ha1⟩)
    · exact Or.inr ⟨fl, hfl2, hfl1⟩

/-- C9: along the retained recipes, `filter_by_preferences` adds exactly
`0.2` (modelled as the exact rational `1/5`) to the `match_score` of each
recipe whose cuisine is among the favorite cuisines, starting from the
default `0` when the key is absent, and leaves every other retained
recipe's `match_score` unchanged. -/
theorem filter_by_preferences_match_score (recipes : List RecipeDict) (p : Preferences) :
    (filter_by_preferences recipes p).map RecipeDict.match_score =
      (recipes.filter (fun r => !(excluded_by_preferences r p))).map
        (fun r =>
          if cuisine_matches r p then some (r.match_score.getD 0 + 1/5)
          else r.match_score) := by
  rw [filter_by_preferences_eq, List.map_map]
  congr 1
  funext r
  by_cases h : cuisine_matches r p = true
  · simp [update_retained, h, Function.comp]
  · simp [update_retained, h, Function.comp]

/-- Fitting the standard scaler on the single-row feature matrix itself
standardizes every entry to `(x - x) / 1 = 0`, so every recipe's feature
vector is the all-zero vector. -/
lemma get_recipe_features_eq_zero (recipe : RecipeDict) :
    get_recipe_features recipe = List.replicate 8 0 := by
  simp [get_recipe_features, scaler_fit_transform_row, scaler_fit_transform_col, sqrtQ,
    List.replicate]

/-- Cosine similarity of two fitted feature vectors is always `0`
(`0 / max(0, eps) = 0`). -/
lemma cosine_similarity_features_zero (r1 r2 : RecipeDict) :
    cosine_similarity (get_recipe_features r1) (get_recipe_features r2) = 0 := by
  rw [get_recipe_features_eq_zero, get_recipe_features_eq_zero]
  simp [cosine_similarity, dotQ, List.replicate]

/-- A list whose scores are all equal is left untouched by the stable
descending sort. -/
lemma sort_by_score_desc_of_zero (l : List (Int × ℚ)) (h : ∀ q ∈ l, q.2 = 0) :
    sort_by_score_desc l = l := by
  have hs : List.Sorted score_ge l := by
    induction l with
    | nil => exact List.sorted_nil
    | cons x xs ih =>
      refine List.Pairwise.cons ?_ (ih fun q hq => h q (List.mem_cons_of_mem _ hq))
      intro y hy
      show y.2 ≤ x.2
      rw [h x (List.mem_cons_self x xs), h y (List.mem_cons_of_mem _ hy)]
  exact List.Sorted.insertionSort_eq hs

/-- C1: for every existing recipe id, `content_based_filtering` returns
exactly the ids of all other recipes, arranged in descending order of the
cosine similarity between each candidate's feature vector and the target's
feature vector (the scores being recomputed by the call itself: the
function is pure and builds the scored list afresh). -/
theorem content_based_filtering_ranks_all_others (db : Db) (recipe_id : Int)
    (target_recipe : RecipeDict) (h : targetOf db recipe_id = some target_recipe) :
    ∃ ranked : List (Int × ℚ),
      content_based_filtering db recipe_id = ranked.map Prod.fst ∧
      ranked.Perm (candidate_scores db recipe_id target_recipe) ∧
      List.Sorted score_ge ranked ∧
      (content_based_filtering db recipe_id).Perm
        ((db.recipes.filter (fun r => !(r.id == recipe_id))).map RecipeDict.id) := by
  have hcbf : content_based_filtering db recipe_id =
      (sort_by_score_desc (candidate_scores db recipe_id target_recipe)).map Prod.fst := by
    simp [content_based_filtering, h]
  refine ⟨sort_by_score_desc (candidate_scores db recipe_id target_recipe),
    hcbf, List.perm_insertionSort _ _, List.sorted_insertionSort _ _, ?_⟩
  rw [hcbf]
  refine ((List.perm_insertionSort score_ge
    (candidate_scores db recipe_id target_recipe)).map Prod.fst).trans ?_
  simp only [candidate_scores, List.map_map]
  exact List.Perm.refl _

/-- Witness for C1 at a concrete database with recipes 1, 2 and 3. -/
theorem content_based_filtering_ranks_all_others_witness :
    targetOf witness_db 1 = some (sample_recipe 1) ∧
    (∃ ranked : List (Int × ℚ),
      content_based_filtering witness_db 1 = ranked.map Prod.fst ∧
      ranked.Perm (candidate_scores witness_db 1 (sample_recipe 1)) ∧
      List.Sorted score_ge ranked ∧
      (content_based_filtering witness_db 1).Perm
        ((witness_db.recipes.filter (fun r => !(r.id == 1))).map RecipeDict.id)) :=
  ⟨rfl, content_based_filtering_ranks_all_others witness_db 1 (sample_recipe 1) rfl⟩

/-- C5: every recipe's fitted feature vector is the all-zero vector, every
pair of recipes has cosine similarity `0`, and consequently
`content_based_filtering` depends only on the ids in the database: when
the target id occurs it returns the other ids in database order, so the
ranking is independent of recipe content. -/
theorem content_based_filtering_content_independent :
    (∀ recipe : RecipeDict, get_recipe_features recipe = List.replicate 8 0) ∧
    (∀ r1 r2 : RecipeDict,
      cosine_similarity (get_recipe_features r1) (get_recipe_features r2) = 0) ∧
    (∀ (db : Db) (recipe_id : Int),
      content_based_filtering db recipe_id =
        if (db.recipes.map RecipeDict.id).contains recipe_id then
          (db.recipes.map RecipeDict.id).filter (fun i => !(i == recipe_id))
        else []) := by
  refine ⟨get_recipe_features_eq_zero, cosine_similarity_features_zero, ?_⟩
  intro db recipe_id
  cases h : targetOf db recipe_id with
  | none =>
    have hc : (db.recipes.map RecipeDict.id).contains recipe_id = false := by
      have h' : ∀ r ∈ db.recipes, ¬(r.id = recipe_id) := by
        simpa only [targetOf, List.find?_eq_none, beq_iff_eq] using h
      simp only [List.contains_eq_any_beq, List.any_eq_false, List.mem_map, beq_iff_eq]
      rintro i ⟨r, hr, rfl⟩
      exact fun hi => h' r hr hi.symm
    simp only [content_based_filtering, h, hc, Bool.false_eq_true, if_false]
  | some target_recipe =>
    have hc : (db.recipes.map RecipeDict.id).contains recipe_id = true := by
      have h' : db.recipes.find? (fun r => r.id == recipe_id) = some target_recipe := h
      have hmem := List.mem_of_find?_eq_some h'
      have hid : (target_recipe.id == recipe_id) = true := by
        have := List.find?_some h'
        simpa using this
      simp only [List.contains_eq_any_beq, List.any_eq_true, List.mem_map, beq_iff_eq]
      exact ⟨target_recipe.id, ⟨target_recipe, hmem, rfl⟩,
        (by simpa using hid : target_recipe.id = recipe_id).symm⟩
    have hzero : ∀ q ∈ candidate_scores db recipe_id target_recipe, q.2 = 0 := by
      rintro q hq
      simp only [candidate_scores, List.mem_map] at hq
      obtain ⟨r, _, rfl⟩ := hq
      exact cosine_similarity_features_zero target_recipe r
    have hcbf : content_based_filtering db recipe_id =
        (sort_by_score_desc (candidate_scores db recipe_id target_recipe)).map Prod.fst := by
      simp [content_based_filtering, h]
    rw [hcbf, sort_by_score_desc_of_zero _ hzero, hc, if_pos rfl]
    simp only [candidate_scores, List.map_map, List.filter_map]
    rfl

/-- `save_checkpoint` never touches the patience counter. -/
lemma save_checkpoint_patience (epoch : ℕ) (v : Loss) (s : TrainerState Loss) :
    (save_checkpoint epoch v s).patience_counter = s.patience_counter := by
  unfold save_checkpoint
  split <;> rfl

/-- Effect of `save_checkpoint` on `best_val_loss`. -/
lemma save_checkpoint_best (epoch : ℕ) (v : Loss) (s : TrainerState Loss) :
    (save_checkpoint epoch v s).best_val_loss =
      if ltBest v s.best_val_loss then some v else s.best_val_loss := by
  unfold save_checkpoint
  split <;> simp_all

/-- Step equation for the best-seen validation loss. -/
lemma min_val_before_succ (vl : ℕ → Loss) (e : ℕ) :
    min_val_before vl (e + 1) =
      if ltBest (vl e) (min_val_before vl e) then some (vl e) else min_val_before vl e := by
  cases h : min_val_before vl e with
  | none => simp [min_val_before, h, ltBest]
  | some m =>
    simp only [min_val_before, h, ltBest]
    by_cases hv : vl e < m
    · simp [hv, min_eq_right (le_of_lt hv)]
    · simp [hv, min_eq_left (le_of_not_lt hv)]

/-- A value never strictly undercuts the minimum just updated with it. -/
lemma ltBest_step_false (v : Loss) (b : Option Loss) :
    ltBest v (if ltBest v b then some v else b) = false := by
  cases hb : ltBest v b
  · simp [hb]
  · simp [ltBest]

/-- A value is not strictly below itself. -/
lemma ltBest_self_false (v : Loss) : ltBest v (some v) = false := by
  simp [ltBest]

/-- The patience counter resets on an epoch the comparison sees as improving. -/
lemma patience_after_of_improves {vl : ℕ → Loss} {si e : ℕ}
    (h : improves_at vl si e = true) : patience_after vl si e = 0 := by
  cases e <;> simp [patience_after, h]

/-- The patience counter increments on a non-improving epoch. -/
lemma patience_after_of_not_improves {vl : ℕ → Loss} {si e : ℕ}
    (h : improves_at vl si e = false) :
    patience_after vl si e = patience_before vl si e + 1 := by
  cases e <;> simp [patience_after, patience_before, h]

/-- The interval checkpoint never touches the patience counter. -/
lemma after_interval_checkpoint_patience (tl vl : ℕ → Loss) (si e : ℕ) (s : TrainerState Loss) :
    (after_interval_checkpoint tl vl si e s).patience_counter = s.patience_counter := by
  unfold after_interval_checkpoint
  split
  · rw [save_checkpoint_patience]
    rfl
  · rfl

/-- Effect of the interval checkpoint on `best_val_loss` when it held the best loss seen so far. -/
lemma after_interval_checkpoint_best (tl vl : ℕ → Loss) (si e : ℕ) (s : TrainerState Loss)
    (hb : s.best_val_loss = min_val_before vl e) :
    (after_interval_checkpoint tl vl si e s).best_val_loss =
      if (e + 1) % si == 0 then min_val_before vl (e + 1) else min_val_before vl e := by
  unfold after_interval_checkpoint
  split
  · rw [save_checkpoint_best]
    show (if ltBest (vl e) (record_losses tl vl e s).best_val_loss then some (vl e)
        else (record_losses tl vl e s).best_val_loss) = _
    have hrb : (record_losses tl vl e s).best_val_loss = min_val_before vl e := hb
    rw [hrb, ← min_val_before_succ]
  · exact hb

/-- After the improving branch, `best_val_loss` is the epoch's loss. -/
lemma improving_update_best (vl : ℕ → Loss) (e : ℕ) (s1 : TrainerState Loss) :
    (improving_update vl e s1).best_val_loss = some (vl e) := by
  unfold improving_update
  rw [save_checkpoint_best]
  simp [ltBest_self_false]

/-- After the improving branch, the patience counter is zero. -/
lemma improving_update_patience (vl : ℕ → Loss) (e : ℕ) (s1 : TrainerState Loss) :
    (improving_update vl e s1).patience_counter = 0 := by
  unfold improving_update
  rw [save_checkpoint_patience]

/-- Shifting the loop characterization by one epoch. -/
lemma shift_characterization (vl : ℕ → Loss) (si pl n e : ℕ)
    (inner_run : ℕ) (inner_stop : Bool)
    (h0 : patience_after vl si e < pl)
    (hd : (∃ j, j < n ∧ pl ≤ patience_after vl si (e + 1 + j) ∧
            (∀ k, k < j → patience_after vl si (e + 1 + k) < pl) ∧
            inner_run = j + 1 ∧ inner_stop = true) ∨
          ((∀ j, j < n → patience_after vl si (e + 1 + j) < pl) ∧
            inner_run = n ∧ inner_stop = false)) :
    (∃ j, j < n + 1 ∧ pl ≤ patience_after vl si (e + j) ∧
        (∀ k, k < j → patience_after vl si (e + k) < pl) ∧
        inner_run + 1 = j + 1 ∧ inner_stop = true) ∨
    ((∀ j, j < n + 1 → patience_after vl si (e + j) < pl) ∧
        inner_run + 1 = n + 1 ∧ inner_stop = false) := by
  rcases hd with ⟨j, hj, hpat, hall, hrun, hstop⟩ | ⟨hall, hrun, hstop⟩
  · left
    refine ⟨j + 1, by omega, ?_, ?_, by omega, hstop⟩
    · have he : e + (j + 1) = e + 1 + j := by omega
      rw [he]
      exact hpat
    · intro k hk
      cases k with
      | zero => simpa using h0
      | succ k' =>
        have he : e + (k' + 1) = e + 1 + k' := by omega
        rw [he]
        exact hall k' (by omega)
  · right
    refine ⟨?_, by omega, hstop⟩
    intro j hj
    cases j with
    | zero => simpa using h0
    | succ j' =>
      have he : e + (j' + 1) = e + 1 + j' := by omega
      rw [he]
      exact hall j' (by omega)

/-- Characterization of the training loop: it stops early at the first epoch whose `patience_after` value reaches the patience limit, and otherwise runs all remaining epochs. -/
lemma train_loop_characterized (tl vl : ℕ → Loss) (si pl : ℕ) (hpl : 0 < pl) :
    ∀ (rem e : ℕ) (s : TrainerState Loss),
      s.best_val_loss = min_val_before vl e →
      s.patience_counter = patience_before vl si e →
      ((∃ j, j < rem ∧ pl ≤ patience_after vl si (e + j) ∧
          (∀ k, k < j → patience_after vl si (e + k) < pl) ∧
          (train_loop tl vl si pl e rem s).epochs_run = j + 1 ∧
          (train_loop tl vl si pl e rem s).early_stopped = true) ∨
        ((∀ j, j < rem → patience_after vl si (e + j) < pl) ∧
          (train_loop tl vl si pl e rem s).epochs_run = rem ∧
          (train_loop tl vl si pl e rem s).early_stopped = false)) := by
  intro rem
  induction rem with
  | zero =>
    intro e s hb hp
    exact Or.inr ⟨fun j hj => absurd hj (Nat.not_lt_zero j), rfl, rfl⟩
  | succ n ih =>
    intro e s hb hp
    have hs1p : (after_interval_checkpoint tl vl si e s).patience_counter =
        patience_before vl si e := by
      rw [after_interval_checkpoint_patience, hp]
    simp only [train_loop]
    cases hchk : (e + 1) % si == 0 with
    | true =>
      have himp : improves_at vl si e = false := by simp [improves_at, hchk]
      have hs1b : (after_interval_checkpoint tl vl si e s).best_val_loss =
          min_val_before vl (e + 1) := by
        rw [after_interval_checkpoint_best tl vl si e s hb, hchk, if_pos rfl]
      have hcond : ltBest (vl e) (after_interval_checkpoint tl vl si e s).best_val_loss
          = false := by
        rw [hs1b, min_val_before_succ]
        exact ltBest_step_false _ _
      simp only [hcond, Bool.false_eq_true, if_false, non_improving_update, hs1p]
      have hpa : patience_after vl si e = patience_before vl si e + 1 :=
        patience_after_of_not_improves himp
      rw [← hpa]
      by_cases hstop : pl ≤ patience_after vl si e
      · simp only [if_pos hstop]
        refine Or.inl ⟨0, ?_, ?_, ?_, ?_, ?_⟩
        · omega
        · simpa using hstop
        · exact fun k hk => absurd hk (Nat.not_lt_zero k)
        · rfl
        · trivial
      · simp only [if_neg hstop]
        have hs2b : (TrainerState.mk (after_interval_checkpoint tl vl si e s).best_val_loss
            (patience_after vl si e)
            (after_interval_checkpoint tl vl si e s).train_losses
            (after_interval_checkpoint tl vl si e s).val_losses
            (after_interval_checkpoint tl vl si e s).checkpoint_epochs
            (after_interval_checkpoint tl vl si e s).best_saved).best_val_loss =
            min_val_before vl (e + 1) := hs1b
        exact shift_characterization vl si pl n e _ _ (by omega)
          (ih (e + 1) _ hs2b rfl)
    | false =>
      have hs1b : (after_interval_checkpoint tl vl si e s).best_val_loss =
          min_val_before vl e := by
        rw [after_interval_checkpoint_best tl vl si e s hb, hchk]
        simp
      have hcond : ltBest (vl e) (after_interval_checkpoint tl vl si e s).best_val_loss
          = improves_at vl si e := by
        rw [hs1b]
        simp [improves_at, hchk, improves_on_best_seen]
      cases himp : improves_at vl si e with
      | true =>
        rw [himp] at hcond
        simp only [hcond, if_true]
        have hib : (improving_update vl e (after_interval_checkpoint tl vl si e s)).best_val_loss
            = min_val_before vl (e + 1) := by
          rw [improving_update_best, min_val_before_succ]
          have : ltBest (vl e) (min_val_before vl e) = true := by
            have h' := hcond
            rw [hs1b] at h'
            exact h'
          rw [this, if_pos rfl]
        have hip : (improving_update vl e (after_interval_checkpoint tl vl si e s)).patience_counter
            = patience_before vl si (e + 1) := by
          rw [improving_update_patience]
          show 0 = patience_after vl si e
          exact (patience_after_of_improves himp).symm
        have h0 : patience_after vl si e < pl := by
          rw [patience_after_of_improves himp]
          exact hpl
        exact shift_characterization vl si pl n e _ _ h0 (ih (e + 1) _ hib hip)
      | false =>
        rw [himp] at hcond
        simp only [hcond, Bool.false_eq_true, if_false, non_improving_update, hs1p]
        have hpa : patience_after vl si e = patience_before vl si e + 1 :=
          patience_after_of_not_improves himp
        rw [← hpa]
        by_cases hstop : pl ≤ patience_after vl si e
        · simp only [if_pos hstop]
          refine Or.inl ⟨0, ?_, ?_, ?_, ?_, ?_⟩
          · omega
          · simpa using hstop
          · exact fun k hk => absurd hk (Nat.not_lt_zero k)
          · rfl
          · trivial
        · simp only [if_neg hstop]
          have hs2b : (TrainerState.mk (after_interval_checkpoint tl vl si e s).best_val_loss
              (patience_after vl si e)
              (after_interval_checkpoint tl vl si e s).train_losses
              (after_interval_checkpoint tl vl si e s).val_losses
              (after_interval_checkpoint tl vl si e s).checkpoint_epochs
              (after_interval_checkpoint tl vl si e s).best_saved).best_val_loss =
              min_val_before vl (e + 1) := by
            show (after_interval_checkpoint tl vl si e s).best_val_loss = _
            rw [hs1b, min_val_before_succ]
            have h' : ltBest (vl e) (min_val_before vl e) = false := by
              have := hcond
              rw [hs1b] at this
              exact this
            rw [h', if_neg (by simp)]
          exact shift_characterization vl si pl n e _ _ (by omega)
            (ih (e + 1) _ hs2b rfl)

/-- C8 (amended): `ModelTrainer.train` runs at most `num_epochs` epochs,
and it stops early (logging that early stopping was triggered) exactly at
the first epoch at which the code's patience counter reaches
`early_stopping_patience`, where the counter is incremented by every epoch
whose validation loss is not strictly below `best_val_loss` at the moment
of the comparison and reset to zero by every other epoch; on epochs where
`epoch + 1` is divisible by `save_interval`, `save_checkpoint` has already
lowered `best_val_loss` to that epoch's validation loss whenever it
improved, so an improving epoch on a checkpoint boundary also increments
the counter (this is the `improves_at`/`patience_after` bookkeeping). -/
theorem ModelTrainer_train_early_stopping (tl vl : ℕ → Loss)
    (num_epochs si pl : ℕ) (hpl : 0 < pl) :
    (ModelTrainer_train tl vl num_epochs si pl).epochs_run ≤ num_epochs ∧
    ((∃ e, e < num_epochs ∧ pl ≤ patience_after vl si e ∧
        (∀ k, k < e → patience_after vl si k < pl) ∧
        (ModelTrainer_train tl vl num_epochs si pl).epochs_run = e + 1 ∧
        (ModelTrainer_train tl vl num_epochs si pl).early_stopped = true) ∨
      ((∀ e, e < num_epochs → patience_after vl si e < pl) ∧
        (ModelTrainer_train tl vl num_epochs si pl).epochs_run = num_epochs ∧
        (ModelTrainer_train tl vl num_epochs si pl).early_stopped = false)) := by
  have h := train_loop_characterized tl vl si pl hpl num_epochs 0 initial_trainer_state rfl rfl
  simp only [Nat.zero_add] at h
  refine ⟨?_, by simpa only [ModelTrainer_train] using h⟩
  rcases h with ⟨j, hj, _, _, hrun, _⟩ | ⟨_, hrun, _⟩ <;>
    simp only [ModelTrainer_train, hrun] <;> omega

/-- Witness for C8 at a concrete run: constant losses, 3 epochs,
`save_interval` 5 and patience 2. -/
theorem ModelTrainer_train_early_stopping_witness :
    0 < 2 ∧
    ((ModelTrainer_train cex_train_loss cex_train_loss 3 5 2).epochs_run ≤ 3 ∧
     ((∃ e, e < 3 ∧ 2 ≤ patience_after cex_train_loss 5 e ∧
         (∀ k, k < e → patience_after cex_train_loss 5 k < 2) ∧
         (ModelTrainer_train cex_train_loss cex_train_loss 3 5 2).epochs_run = e + 1 ∧
         (ModelTrainer_train cex_train_loss cex_train_loss 3 5 2).early_stopped = true) ∨
       ((∀ e, e < 3 → patience_after cex_train_loss 5 e < 2) ∧
         (ModelTrainer_train cex_train_loss cex_train_loss 3 5 2).epochs_run = 3 ∧
         (ModelTrainer_train cex_train_loss cex_train_loss 3 5 2).early_stopped = false))) :=
  ⟨by decide, ModelTrainer_train_early_stopping cex_train_loss cex_train_loss 3 5 2 (by decide)⟩

/-- C8 counterexample: with validation losses 3, 2, 1, ... (every epoch
strictly improves on the best validation loss seen so far),
`num_epochs = 5`, `save_interval = 1` and `early_stopping_patience = 2`,
the trainer triggers early stopping and stops after only 2 epochs — both
of which improved on the best seen so far, so the validation loss had not
failed to improve for 2 consecutive epochs, contradicting the claim as
stated. (The cause: on every `save_interval` boundary, `save_checkpoint`
lowers `self.best_val_loss` before the early-stopping comparison, which
therefore never sees an improvement there.) -/
theorem ModelTrainer_train_stops_despite_improvement :
    (ModelTrainer_train cex_train_loss cex_val_loss 5 1 2).early_stopped = true ∧
    (ModelTrainer_train cex_train_loss cex_val_loss 5 1 2).epochs_run = 2 ∧
    improves_on_best_seen cex_val_loss 0 = true ∧
    improves_on_best_seen cex_val_loss 1 = true :=
  ⟨by decide, by decide, by decide, by decide⟩
